import Mathlib

/-!
Verification development for the phish-defender ingestion-and-classification
pipeline (backend/app/services/ingestion.py, backend/app/routers/emails.py,
backend/app/services/graph_api.py, backend/app/models/*).

Shallow embedding conventions:
  * Python `str` is Lean `String`; case-insensitive matching is modelled with
    an ASCII `Char.toLower` map (all strings compared case-insensitively in
    the source are ASCII).
  * Python `float` scores and thresholds are modelled as `ℚ`; every score the
    classifier can produce is an exact multiple of 1/100, so exact rational
    arithmetic coincides with the source's arithmetic on these values.
  * `datetime` values are modelled as an abstract tick `Nat`; one tick is
    used per run (`datetime.now` is not relevant to any claim).
  * A SQLAlchemy session is modelled as a pair of stores: the committed base
    store plus a working store holding pending (added / flushed) rows.
    `commit` makes the working store the persisted one; `rollback` discards
    it and keeps the base.  `session.add(obj)` of a detached mailbox object
    persists the object's current in-memory field values on commit, while
    adding an object that is still attached to another session raises
    InvalidRequestError before anything is written.
  * Exceptions raised by the Graph adapter or by the final commit are
    injected as explicit `Except` / `Option` arguments.
-/

namespace PhishDefender

/-! ## String helpers (Python `str.lower`, `in`, `endswith`, slicing) -/

/-- ASCII lower-casing of a string, modelling Python `str.lower()` on the
ASCII inputs used by the pipeline. -/
def lowerStr (s : String) : String := (s.toList.map Char.toLower).asString

/-- Does the second list start with the first one?  Helper for substring and
suffix tests. -/
def listBeginsWith : List Char → List Char → Bool
  | [], _ => true
  | _ :: _, [] => false
  | a :: as, b :: bs => a == b && listBeginsWith as bs

/-- Does `needle` occur contiguously inside the second list?  Models Python's
`needle in haystack` on strings. -/
def listContainsSub (needle : List Char) : List Char → Bool
  | [] => listBeginsWith needle []
  | b :: bs => listBeginsWith needle (b :: bs) || listContainsSub needle bs

/-- Python `needle in haystack` for strings. -/
def strContainsSub (needle hay : String) : Bool :=
  listContainsSub needle.toList hay.toList

/-- Python `s.endswith(suffix)`. -/
def strEndsWith (suffix s : String) : Bool :=
  listBeginsWith suffix.toList.reverse s.toList.reverse

/-- Python slicing `s[:512]` (used for `last_error` / `job_error_message`). -/
def truncate512 (s : String) : String := (s.toList.take 512).asString

/-! ## SimpleClassifier (ingestion.py lines 51-152) -/

/-- HIGH_KEYWORDS of `SimpleClassifier`. -/
def HIGH_KEYWORDS : List String :=
  ["verify your account", "urgent action required", "password expired",
   "wire transfer", "confirm your identity", "your account has been suspended",
   "click here immediately", "login to restore", "account verification required",
   "we detected unusual activity"]

/-- LOW_KEYWORDS of `SimpleClassifier`. -/
def LOW_KEYWORDS : List String :=
  ["invoice attached", "delivery failed", "your package", "sign the document",
   "subscription renewal", "limited time offer", "you have been selected"]

/-- SUSPICIOUS_TLDS of `SimpleClassifier`.  The source holds these in a set;
no element is a suffix of another, so at most one of them can match a given
domain and the iteration order of the set is immaterial. -/
def SUSPICIOUS_TLDS : List String :=
  [".ru", ".xyz", ".tk", ".cn", ".top", ".club", ".info"]

/-- brand_patterns of `SimpleClassifier.classify` (typosquatting heuristic). -/
def brand_patterns : List String :=
  ["paypa1", "amaz0n", "micr0soft", "g00gle", "app1e"]

/-- The additive score of `SimpleClassifier.classify` before the 0.99 cap
(ingestion.py lines 87-135). -/
def classifyRawScore (subject body_text sender_domain : String)
    (urls ips : List String) : ℚ :=
  let text := lowerStr (subject ++ " " ++ body_text)
  let matched_high := HIGH_KEYWORDS.filter (fun kw => strContainsSub kw text)
  let matched_low := LOW_KEYWORDS.filter (fun kw => strContainsSub kw text)
  let domain_lower := lowerStr sender_domain
  let s1 : ℚ := if matched_high.isEmpty then 0 else (15 / 100) * matched_high.length
  let s2 : ℚ :=
    if !matched_low.isEmpty && matched_high.isEmpty then (8 / 100) * matched_low.length else 0
  let s3 : ℚ :=
    if SUSPICIOUS_TLDS.any (fun tld => strEndsWith tld domain_lower) then 20 / 100 else 0
  let s4 : ℚ :=
    if brand_patterns.any (fun pat => strContainsSub pat domain_lower) then 25 / 100 else 0
  let s5 : ℚ := if ips.isEmpty then 0 else 10 / 100
  let s6 : ℚ := if urls.length > 5 then 8 / 100 else 0
  s1 + s2 + s3 + s4 + s5 + s6

/-- The capped score `score = min(score, 0.99)` on which the category decision
is made (ingestion.py line 138). -/
def classifyScore (subject body_text sender_domain : String)
    (urls ips : List String) : ℚ :=
  min (classifyRawScore subject body_text sender_domain urls ips) (99 / 100)

/-- Python `round(x, 4)`.  Every score reachable in `classify` is an exact
multiple of 1/100, on which round-half-even and round-half-up agree (no
half-way cases arise), so `round` is faithful here. -/
def round4 (q : ℚ) : ℚ := ((round (q * 10000) : ℤ) : ℚ) / 10000

/-- The ordered reasoning bullets of `SimpleClassifier.classify`
(ingestion.py lines 88-135), before the safe-category default line. -/
def classifyReasoning (subject body_text sender_domain : String)
    (urls ips : List String) : List String :=
  let text := lowerStr (subject ++ " " ++ body_text)
  let matched_high := HIGH_KEYWORDS.filter (fun kw => strContainsSub kw text)
  let matched_low := LOW_KEYWORDS.filter (fun kw => strContainsSub kw text)
  let domain_lower := lowerStr sender_domain
  let r1 : List String :=
    if matched_high.isEmpty then []
    else ["High-risk keywords detected: " ++ String.intercalate ", " (matched_high.take 3)]
  let r2 : List String :=
    if !matched_low.isEmpty && matched_high.isEmpty then
      ["Moderate-risk keywords detected: " ++ String.intercalate ", " (matched_low.take 3)]
    else []
  let r3 : List String :=
    match SUSPICIOUS_TLDS.find? (fun tld => strEndsWith tld domain_lower) with
    | some tld => ["Sender domain uses suspicious TLD: " ++ tld]
    | none => []
  let r4 : List String :=
    if brand_patterns.any (fun pat => strContainsSub pat domain_lower) then
      ["Possible typosquatted brand domain detected: " ++ sender_domain]
    else []
  let r5 : List String :=
    if ips.isEmpty then []
    else ["Raw IP addresses found in message body: " ++ String.intercalate ", " (ips.take 3)]
  let r6 : List String :=
    if urls.length > 5 then
      ["Unusually high number of URLs (" ++ Nat.repr urls.length ++ ") in body"]
    else []
  r1 ++ r2 ++ r3 ++ r4 ++ r5 ++ r6

/-- `SimpleClassifier.classify` (ingestion.py lines 77-149): returns
(category, rounded confidence, reasoning bullets). -/
def classify (subject body_text sender_domain : String) (urls ips : List String)
    (high_threshold low_threshold : ℚ) : String × ℚ × List String :=
  let score := classifyScore subject body_text sender_domain urls ips
  let reasoning := classifyReasoning subject body_text sender_domain urls ips
  if high_threshold ≤ score then
    ("high_malicious", round4 score, reasoning)
  else if low_threshold ≤ score then
    ("low_malicious", round4 score, reasoning)
  else
    ("safe", round4 score,
      if reasoning.isEmpty then ["No significant threat indicators detected"] else reasoning)

/-- Rank of a category along the safe → low_malicious → high_malicious axis,
used to state monotonicity of the category decision. -/
def catRank (c : String) : Nat :=
  if c = "high_malicious" then 2 else if c = "low_malicious" then 1 else 0

/-! ## Indicator extraction (ingestion.py lines 40-46 and 157-178)

The URL expression is `https?://` followed by one or more characters other
than whitespace, double quote, single quote, `<`, `>`, case-insensitive; the
IP expression is a word-bounded dotted quad of 1-3 digit groups.  Both are
modelled as left-to-right non-overlapping leftmost scans, which is what
`re.findall` performs; the greedy bounded repetitions collapse to maximal
digit runs as the groups are separated by literal dots. -/

/-- Python's `\s` class on the ASCII range. -/
def isPySpace (c : Char) : Bool :=
  c = ' ' || c = '\t' || c = '\n' || c = '\r' || c = Char.ofNat 11 || c = Char.ofNat 12

/-- A character admitted by the URL body class `[^\s"'<>]`. -/
def urlBodyChar (c : Char) : Bool :=
  !(isPySpace c || c = Char.ofNat 34 || c = Char.ofNat 39 || c = '<' || c = '>')

/-- Case-insensitive prefix test: the pattern is given in lower case and each
text character is lowered before comparison (re.IGNORECASE). -/
def ciBeginsWith : List Char → List Char → Bool
  | [], _ => true
  | _ :: _, [] => false
  | p :: ps, c :: cs => p == c.toLower && ciBeginsWith ps cs

/-- The two scheme alternatives of `https?://`, longest (greedy `s?`) first. -/
def urlSchemes : List (List Char) := ["https://".toList, "http://".toList]

/-- Try to match the URL expression at the head of the list.  Returns the
matched characters (original casing) and the remainder of the input. -/
def urlMatchAt (l : List Char) : Option (List Char × List Char) :=
  match urlSchemes.find? (fun s => ciBeginsWith s l) with
  | none => none
  | some s =>
    let rest := l.drop s.length
    let run := rest.takeWhile urlBodyChar
    if run.isEmpty then none
    else some (l.take s.length ++ run, rest.drop run.length)

/-- Fuelled scan for all URL matches; fuel bounds the number of consumed
characters so the recursion is structural. -/
def urlFindAllFuel : Nat → List Char → List (List Char)
  | 0, _ => []
  | _ + 1, [] => []
  | fuel + 1, c :: cs =>
    match urlMatchAt (c :: cs) with
    | some (m, rest) => m :: urlFindAllFuel fuel rest
    | none => urlFindAllFuel fuel cs

/-- All URL matches of `_URL_RE.findall` in left-to-right order. -/
def urlFindAll (l : List Char) : List (List Char) := urlFindAllFuel l.length l

/-- ASCII decimal digit. -/
def isDigitChar (c : Char) : Bool := '0' ≤ c && c ≤ '9'

/-- Python's `\w` class on the ASCII range (used for `\b`). -/
def isWordChar (c : Char) : Bool := c.isAlpha || isDigitChar c || c = '_'

/-- Parse one `\d{1,3}\.` group: a maximal digit run of length 1-3 followed
by a literal dot.  A longer run cannot match, because backtracking to fewer
digits puts a digit where the dot is required. -/
def ipGroup (l : List Char) : Option (List Char × List Char) :=
  let run := l.takeWhile isDigitChar
  if run.length < 1 || run.length > 3 then none
  else if (l.drop run.length).head? = some '.' then
    some (run ++ ['.'], l.drop (run.length + 1))
  else none

/-- Parse the final `\d{1,3}\b` group: a maximal digit run of length 1-3
followed by a non-word character or the end of input. -/
def ipLastGroup (l : List Char) : Option (List Char × List Char) :=
  let run := l.takeWhile isDigitChar
  if run.length < 1 || run.length > 3 then none
  else
    match (l.drop run.length).head? with
    | none => some (run, [])
    | some c => if isWordChar c then none else some (run, l.drop run.length)

/-- Try to match the dotted-quad expression at the head of the list (the
leading word boundary is handled by the scanner). -/
def ipMatchAt (l : List Char) : Option (List Char × List Char) :=
  match ipGroup l with
  | none => none
  | some (g1, r1) =>
    match ipGroup r1 with
    | none => none
    | some (g2, r2) =>
      match ipGroup r2 with
      | none => none
      | some (g3, r3) =>
        match ipLastGroup r3 with
        | none => none
        | some (g4, r4) => some (g1 ++ g2 ++ g3 ++ g4, r4)

/-- Fuelled scan for all IP matches.  The boolean tracks whether the previous
character was a word character, i.e. whether the leading `\b` is blocked; a
match always ends in a digit, so scanning resumes with the flag set. -/
def ipFindAllFuel : Nat → Bool → List Char → List (List Char)
  | 0, _, _ => []
  | _ + 1, _, [] => []
  | fuel + 1, prevWord, c :: cs =>
    if prevWord then ipFindAllFuel fuel (isWordChar c) cs
    else
      match ipMatchAt (c :: cs) with
      | some (m, rest) => m :: ipFindAllFuel fuel true rest
      | none => ipFindAllFuel fuel (isWordChar c) cs

/-- All IP matches of `_IP_RE.findall` in left-to-right order. -/
def ipFindAll (l : List Char) : List (List Char) := ipFindAllFuel l.length false l

/-- Order-preserving de-duplication keeping the first occurrence of each
value, modelling `list(dict.fromkeys(xs))`. -/
def dedupFirstAux {α : Type} [DecidableEq α] : List α → List α → List α
  | _, [] => []
  | seen, x :: xs =>
    if x ∈ seen then dedupFirstAux seen xs else x :: dedupFirstAux (x :: seen) xs

/-- `list(dict.fromkeys(l))`: first-seen-order de-duplication. -/
def dedupFirst {α : Type} [DecidableEq α] (l : List α) : List α := dedupFirstAux [] l

/-- A scheme character per `urllib.parse` (letters, digits, `+`, `-`, `.`). -/
def isSchemeChar (c : Char) : Bool := c.isAlpha || isDigitChar c || c = '+' || c = '-' || c = '.'

/-- The `netloc` component of `urllib.parse.urlparse`: strip a valid scheme
before the first colon, then, if the remainder starts with `//`, take the
characters up to the first `/`, `?` or `#`.  A mismatched square bracket in
the netloc makes urlparse raise (Invalid IPv6 URL), modelled as `none`; the
source catches that and skips the URL for domain extraction. -/
def netlocOf (u : List Char) : Option (List Char) :=
  let pre := u.takeWhile (fun c => c != ':')
  let validScheme :=
    pre.length < u.length &&
      (match pre with
       | c :: _ => c.isAlpha
       | [] => false) &&
      pre.all isSchemeChar
  let afterScheme := if validScheme then u.drop (pre.length + 1) else u
  match afterScheme with
  | '/' :: '/' :: rest =>
    let netloc := rest.takeWhile (fun c => c != '/' && c != '?' && c != '#')
    if (netloc.contains '[' && !netloc.contains ']') ||
       (netloc.contains ']' && !netloc.contains '[') then none
    else some netloc
  | _ => some []

/-- `extract_indicators` (ingestion.py lines 157-178): returns
(urls, domains, ips), each de-duplicated in first-seen order and then
truncated to the hard caps 50 / 50 / 20. -/
def extract_indicators (html text : Option String) :
    List String × List String × List String :=
  let content := (html.getD "") ++ " " ++ (text.getD "")
  let urls := dedupFirst ((urlFindAll content.toList).map List.asString)
  let ips := dedupFirst ((ipFindAll content.toList).map List.asString)
  let domains := dedupFirst (urls.filterMap (fun url =>
    match netlocOf url.toList with
    | some nl => if nl.isEmpty then none else some ((nl.map Char.toLower).asString)
    | none => none))
  (urls.take 50, domains.take 50, ips.take 20)

/-! ## Custom rules (models/custom_rule.py, ingestion.py lines 183-205) -/

/-- A row of the custom_rules table (fields used by ingestion). -/
structure CustomRuleRec where
  rule_type : String
  value : String
  force_category : String
  is_active : Bool
deriving DecidableEq

/-- `apply_custom_rules` (ingestion.py lines 183-205): walk the supplied rule
list in order; skip inactive rules; a domain rule fires on case-insensitive
equality with the sender domain, a keyword rule fires when its value is a
case-insensitive substring of subject + " " + body; the first firing rule's
force_category is returned. -/
def apply_custom_rules (subject body_text sender_domain : String)
    (rules : List CustomRuleRec) : Option String :=
  match rules with
  | [] => none
  | rule :: rest =>
    if rule.is_active = false then
      apply_custom_rules subject body_text sender_domain rest
    else if rule.rule_type = "domain" then
      if lowerStr sender_domain = lowerStr rule.value then some rule.force_category
      else apply_custom_rules subject body_text sender_domain rest
    else if rule.rule_type = "keyword" then
      if strContainsSub (lowerStr rule.value) (lowerStr (subject ++ " " ++ body_text)) then
        some rule.force_category
      else apply_custom_rules subject body_text sender_domain rest
    else apply_custom_rules subject body_text sender_domain rest

/-! ## Data model (backend/app/models/*)

Only the columns read or written by the ingestion pipeline and the override
endpoint are modelled.  Primary keys are `Nat`; timestamps are abstract
ticks. -/

/-- A row of the emails table (models/email.py). -/
structure EmailRec where
  id : Nat
  graph_message_id : String
  mailbox_address : String
  sender : String
  sender_domain : String
  recipient : String
  subject : String
  received_at : Nat
  body_html : Option String
  body_text : Option String
  ai_category : String
  confidence_score : ℚ
  ai_reasoning : List String
  review_status : String
  analyst_category : Option String := none
  analyst_override_reason : Option String := none
  reviewed_by : Option String := none
  reviewed_at : Option Nat := none

/-- A row of the threat_indicators table. -/
structure ThreatIndicatorRec where
  email_id : Nat
  indicator_type : String
  value : String
  is_malicious : Bool := false

/-- A row of the email_audit_trail table (per-email audit trail). -/
structure AuditTrailRec where
  email_id : Nat
  timestamp : Nat
  action : String
  actor : String
  detail : String

/-- A row of the global audit_logs table. -/
structure AuditLogRec where
  analyst : String
  action : String
  email_id : Option Nat := none
  detail : String
  previous_category : Option String := none
  new_category : Option String := none

/-- A row of the mailboxes table (models/mailbox.py). -/
structure MailboxRec where
  address : String
  display_name : String := ""
  is_active : Bool
  last_polled_at : Option Nat := none
  last_error : Option String := none
  delta_link : Option String := none
deriving DecidableEq

/-- The singleton app_settings row (models/settings.py); only the columns the
run coordinator and the classifier thresholds use. -/
structure AppSettingsRec where
  job_status : String
  job_last_run : Option Nat := none
  job_error_message : Option String := none
  high_malicious_threshold : ℚ
  low_malicious_threshold : ℚ

/-- The persisted database state touched by the pipeline. -/
structure Store where
  next_email_id : Nat := 0
  emails : List EmailRec := []
  indicators : List ThreatIndicatorRec := []
  trail : List AuditTrailRec := []
  audit_log : List AuditLogRec := []
  mailboxes : List MailboxRec := []
  custom_rules : List CustomRuleRec := []
  settings : Option AppSettingsRec := none

/-! ## Graph message extraction (graph_api.py lines 164-208) -/

/-- A raw Graph message dict, flattened to the fields the pipeline reads.
`none` models an absent key.  `receivedAt` abstracts the parsed
receivedDateTime (no claim depends on the ISO-8601 parse). -/
structure Msg where
  idField : Option String
  subjectField : Option String := none
  fromAddress : Option String := none
  toAddresses : List String := []
  receivedAt : Nat := 0
  bodyContentType : Option String := none
  bodyContent : Option String := none

/-- The address part after the last `@`, modelling
`email_addr.split("@")[-1]`. -/
def afterLastAt (addr : String) : String :=
  ((addr.splitOn "@").getLastD "")

/-- `GraphAPIClient.extract_sender`: (sender address, sender domain). -/
def extract_sender (m : Msg) : String × String :=
  let addr := m.fromAddress.getD "unknown@unknown.com"
  (addr, if addr.toList.contains '@' then afterLastAt addr else "unknown")

/-- `GraphAPIClient.extract_recipient`: first To: recipient or "". -/
def extract_recipient (m : Msg) : String :=
  match m.toAddresses with
  | r :: _ => r
  | [] => ""

/-- `GraphAPIClient.extract_body`: (html_body, text_body) depending on the
content type (default "text"). -/
def extract_body (m : Msg) : Option String × Option String :=
  let content_type := lowerStr (m.bodyContentType.getD "text")
  let content := m.bodyContent.getD ""
  if content_type = "html" then (some content, none) else (none, some content)

/-! ## Ingestion orchestrator (ingestion.py lines 210-371) -/

/-- De-duplication lookup: does a row with this graph_message_id exist in the
session's view of the emails table (ingestion.py lines 294-298)? -/
def emailExists (st : Store) (gid : String) : Bool :=
  st.emails.any (fun e => e.graph_message_id == gid)

/-- `_process_message` (ingestion.py lines 278-371) on the session's working
store: skip on a missing/empty id or a duplicate; otherwise extract, classify,
apply rules, and add the Email row (flush assigns its id), its
ThreatIndicator rows, and the initial "ingested" AuditTrailEntry.  Returns
the updated working store and 1 if a row was added, 0 otherwise.  The
confidence-percent formatting of the trail detail is abstracted. -/
def _process_message (work : Store) (msg : Msg) (mailbox_address : String)
    (custom_rules : List CustomRuleRec) (high_threshold low_threshold : ℚ)
    (now : Nat) : Store × Nat :=
  let graph_id := msg.idField.getD ""
  if graph_id = "" then (work, 0)
  else if emailExists work graph_id then (work, 0)
  else
    let sender := (extract_sender msg).1
    let sender_domain := (extract_sender msg).2
    let recipient := extract_recipient msg
    let received_at := msg.receivedAt
    let body_html := (extract_body msg).1
    let body_text := (extract_body msg).2
    let subject := msg.subjectField.getD "(no subject)"
    let ind := extract_indicators body_html body_text
    let urls := ind.1
    let domains := ind.2.1
    let ips := ind.2.2
    let cls := classify subject (body_text.getD "") sender_domain urls ips
      high_threshold low_threshold
    let forced := apply_custom_rules subject (body_text.getD "") sender_domain custom_rules
    let ai_category :=
      match forced with
      | some f => if f = "" then cls.1 else f
      | none => cls.1
    let reasoning :=
      match forced with
      | some f => if f = "" then cls.2.2 else ("Force-classified by custom rule → " ++ f) :: cls.2.2
      | none => cls.2.2
    let eid := work.next_email_id
    let email : EmailRec :=
      { id := eid, graph_message_id := graph_id, mailbox_address := mailbox_address,
        sender := sender, sender_domain := sender_domain, recipient := recipient,
        subject := subject, received_at := received_at, body_html := body_html,
        body_text := body_text, ai_category := ai_category,
        confidence_score := cls.2.1, ai_reasoning := reasoning,
        review_status := "pending" }
    let work1 := { work with next_email_id := eid + 1, emails := work.emails ++ [email] }
    let work2 := { work1 with indicators := (work1.indicators
        ++ urls.map (fun u => ({ email_id := eid, indicator_type := "url", value := u } : ThreatIndicatorRec))
        ++ domains.map (fun d => ({ email_id := eid, indicator_type := "domain", value := d } : ThreatIndicatorRec))
        ++ ips.map (fun i => ({ email_id := eid, indicator_type := "ip", value := i } : ThreatIndicatorRec))) }
    let work3 := { work2 with trail := (work2.trail
        ++ [({ email_id := eid, timestamp := now, action := "ingested", actor := "system",
               detail := "AI classified as " ++ ai_category } : AuditTrailRec)]) }
    (work3, 1)

/-- The per-message loop of `ingest_mailbox` (ingestion.py lines 231-247).
`_process_message` is total in this embedding, so the per-message exception
handler of the source never fires here. -/
def processMessages (work : Store) (msgs : List Msg) (mailbox_address : String)
    (custom_rules : List CustomRuleRec) (high_threshold low_threshold : ℚ)
    (now : Nat) : Store × Nat :=
  match msgs with
  | [] => (work, 0)
  | m :: ms =>
    let r1 := _process_message work m mailbox_address custom_rules high_threshold low_threshold now
    let r2 := processMessages r1.1 ms mailbox_address custom_rules high_threshold low_threshold now
    (r2.1, r1.2 + r2.2)

/-- Persist a mailbox object's current in-memory state: `session.add` of the
row followed by commit updates the row with the object's field values (rows
are keyed by the unique address). -/
def storeSetMailbox (st : Store) (m : MailboxRec) : Store :=
  { st with mailboxes := st.mailboxes.map (fun x => if x.address = m.address then m else x) }

/-- The InvalidRequestError message `Session.add` raises for an object that
is still attached to another session. -/
def alreadyAttachedError : String := "Object is already attached to session"

/-- Result of one `ingest_mailbox` call: the persisted store after the call,
and either the normal return (the in-memory mailbox object as the call
leaves it, and the returned count) or the exception the call raises. -/
structure IngestResult where
  store : Store
  outcome : Except String (MailboxRec × Nat)

/-- The ingested count of a normally-returning `ingest_mailbox` call.  A
raising call returns no count; the 0 of that branch is a convention and is
never relied on. -/
def IngestResult.ingested (r : IngestResult) : Nat :=
  match r.outcome with
  | .ok p => p.2
  | .error _ => 0

/-- `ingest_mailbox` (ingestion.py lines 210-275).  Active rules are loaded
from the store; the Graph fetch result and a possible failure of the final
commit are injected.  On success one transaction commits the new rows, the
mailbox cursor update (new delta link, last_polled_at, cleared last_error)
and, when anything was ingested, one aggregate AuditLog entry.  On a fetch
error the mailbox object was never added to the poll session, so the
separate error transaction succeeds and persists only last_error.  On a
commit error the rollback discards every pending row together with the
mailbox update, and the mailbox object is still attached to the rolled-back
session, so `db2.add(mailbox)` raises InvalidRequestError before anything
is written: the separate transaction persists nothing — the persisted store
is exactly the pre-poll one — and the call raises instead of returning. -/
def ingest_mailbox (store : Store) (mailbox : MailboxRec)
    (settings_row : AppSettingsRec)
    (fetchResult : Except String (List Msg × Option String))
    (commitFailure : Option String) (now : Nat) : IngestResult :=
  let custom_rules := store.custom_rules.filter (fun r => r.is_active)
  match fetchResult with
  | .error exc =>
    let mailbox' := { mailbox with last_error := some (truncate512 exc) }
    { store := storeSetMailbox store mailbox', outcome := .ok (mailbox', 0) }
  | .ok (messages, new_delta) =>
    let pr := processMessages store messages mailbox.address custom_rules
      settings_row.high_malicious_threshold settings_row.low_malicious_threshold now
    let ingested := pr.2
    let mailbox' :=
      { mailbox with
          delta_link := new_delta,
          last_polled_at := some now,
          last_error := none }
    let work := storeSetMailbox pr.1 mailbox'
    let work' :=
      if ingested > 0 then
        { work with audit_log := (work.audit_log
            ++ [{ analyst := "system", action := "ingestion",
                  detail := "Ingested " ++ Nat.repr ingested ++ " new message(s) from "
                    ++ mailbox.address }]) }
      else work
    match commitFailure with
    | none => { store := work', outcome := .ok (mailbox', ingested) }
    | some _exc =>
      { store := store, outcome := .error alreadyAttachedError }

/-! ## Run coordinator (ingestion.py lines 376-451) -/

/-- The summary dict returned by `run_ingestion`. -/
structure RunSummary where
  mailboxes_processed : Nat
  total_ingested : Nat
  errors : List String

/-- Result of `run_ingestion`: the final persisted store, the summary, and
the sequence of store snapshots persisted by each commit of the run, in
order (this is what concurrent readers of RunState can observe). -/
structure RunResult where
  store : Store
  summary : RunSummary
  commits : List Store

/-- Accumulated state of the mailbox loop of `run_ingestion`: the store
after the polls so far, the processed / ingested counters, the error list
of the summary, and the commit snapshots of the polls that committed. -/
structure MailboxLoopResult where
  store : Store
  processed : Nat
  ingested : Nat
  errors : List String
  commits : List Store

/-- The mailbox loop of `run_ingestion` (ingestion.py lines 423-431): the
mailboxes were loaded once before the loop, so each poll uses the delta link
the row had at load time.  A fetch failure is caught inside `ingest_mailbox`
and returns normally, so that mailbox still counts as processed; a poll
that raises (the commit-failure path) is caught by the loop's per-mailbox
handler, which appends "address: exception" to the error list and moves on
without counting the mailbox as processed.  A raising poll committed
nothing, so it contributes no commit snapshot. -/
def runMailboxes (store : Store) (mbs : List MailboxRec)
    (settings_row : AppSettingsRec)
    (fetchOf : String → Option String → Except String (List Msg × Option String))
    (commitFailOf : String → Option String) (now : Nat) : MailboxLoopResult :=
  match mbs with
  | [] => { store := store, processed := 0, ingested := 0, errors := [], commits := [] }
  | m :: rest =>
    let r := ingest_mailbox store m settings_row (fetchOf m.address m.delta_link)
      (commitFailOf m.address) now
    let rr := runMailboxes r.store rest settings_row fetchOf commitFailOf now
    match r.outcome with
    | .ok p =>
      { store := rr.store, processed := rr.processed + 1, ingested := rr.ingested + p.2,
        errors := rr.errors, commits := r.store :: rr.commits }
    | .error exc =>
      { store := rr.store, processed := rr.processed, ingested := rr.ingested,
        errors := (m.address ++ ": " ++ exc) :: rr.errors, commits := rr.commits }

/-- `run_ingestion` (ingestion.py lines 376-451).  Reads the settings row;
when present, immediately persists job_status = "running".  When the Graph
credentials are not configured, persists job_status back to "idle" and
returns the empty summary.  Otherwise polls every active mailbox and finally
persists job_status = "idle", job_last_run, and the joined error list
(cleared when empty).  `configured` injects `get_settings().graph_api_configured`. -/
def run_ingestion (store : Store) (configured : Bool)
    (fetchOf : String → Option String → Except String (List Msg × Option String))
    (commitFailOf : String → Option String) (now : Nat) : RunResult :=
  match store.settings with
  | none => { store := store, summary := ⟨0, 0, []⟩, commits := [] }
  | some settings_row =>
    let store1 := { store with settings := some { settings_row with job_status := "running" } }
    let mailboxes := store1.mailboxes.filter (fun m => m.is_active)
    if configured = false then
      let store2 :=
        match store1.settings with
        | some s => { store1 with settings := some { s with job_status := "idle" } }
        | none => store1
      { store := store2, summary := ⟨0, 0, []⟩, commits := [store1, store2] }
    else
      let lp := runMailboxes store1 mailboxes settings_row fetchOf commitFailOf now
      let summary : RunSummary := ⟨lp.processed, lp.ingested, lp.errors⟩
      match lp.store.settings with
      | some s =>
        let s' :=
          { s with
              job_status := "idle",
              job_last_run := some now,
              job_error_message :=
                (if lp.errors.isEmpty then none
                 else some (truncate512 (String.intercalate "; " lp.errors))) }
        let storeLast := { lp.store with settings := some s' }
        { store := storeLast, summary := summary,
          commits := store1 :: lp.commits ++ [storeLast] }
      | none =>
        { store := lp.store, summary := summary, commits := store1 :: lp.commits }

/-! ## Analyst override (routers/emails.py lines 133-186) -/

/-- The OverrideRequest body. -/
structure OverrideRequest where
  new_category : String
  reason : String
  analyst : String

/-- Lookup of an email row by primary key. -/
def findEmail (st : Store) (eid : Nat) : Option EmailRec :=
  st.emails.find? (fun e => e.id == eid)

/-- `override_email` (emails.py lines 133-186): 404 when the id is unknown;
otherwise set the analyst override fields and review_status = "overridden"
on the row, append an "override" entry to the per-email audit trail and one
to the global audit log. -/
def override_email (store : Store) (email_id : Nat) (body : OverrideRequest)
    (now : Nat) : Except String Store :=
  match findEmail store email_id with
  | none => .error "Email not found"
  | some email =>
    let previous_category := email.ai_category
    let email' := { email with
      analyst_category := some body.new_category,
      analyst_override_reason := some body.reason,
      reviewed_by := some body.analyst,
      reviewed_at := some now,
      review_status := "overridden" }
    .ok { store with
      emails := store.emails.map (fun x => if x.id == email_id then email' else x),
      trail := (store.trail
        ++ [{ email_id := email_id, timestamp := now, action := "override",
              actor := body.analyst,
              detail := "Reclassified " ++ previous_category ++ " → " ++ body.new_category
                ++ ". Reason: " ++ body.reason }]),
      audit_log := (store.audit_log
        ++ [{ analyst := body.analyst, action := "override", email_id := some email_id,
              detail := body.reason, previous_category := some previous_category,
              new_category := some body.new_category }]) }

/-- The graph_message_id column of the emails table, used to state the
at-most-one-record-per-remote-id property. -/
def graphIds (st : Store) : List String := st.emails.map (fun e => e.graph_message_id)

/-- The raw (pre-dedup, pre-cap) URL match list `_URL_RE.findall(content)`
that `extract_indicators` starts from. -/
def rawUrlStrings (html text : Option String) : List String :=
  (urlFindAll (((html.getD "") ++ " " ++ (text.getD "")).toList)).map List.asString

/-- The raw (pre-dedup, pre-cap) IP match list `_IP_RE.findall(content)`. -/
def rawIpStrings (html text : Option String) : List String :=
  (ipFindAll (((html.getD "") ++ " " ++ (text.getD "")).toList)).map List.asString

/-- The per-URL netloc list (pre-dedup, pre-cap) that `extract_indicators`
builds its domain list from. -/
def rawDomainStrings (html text : Option String) : List String :=
  (dedupFirst (rawUrlStrings html text)).filterMap (fun url =>
    match netlocOf url.toList with
    | some nl => if nl.isEmpty then none else some ((nl.map Char.toLower).asString)
    | none => none)

/-! ## Concrete instances used by the claim-specific theorems -/

/-- A settings row with the default thresholds (0.80 / 0.50). -/
def defaultSettings : AppSettingsRec :=
  { job_status := "idle", high_malicious_threshold := 4 / 5, low_malicious_threshold := 1 / 2 }

/-- A mailbox holding a stored delta cursor before a poll. -/
def c3Mailbox : MailboxRec :=
  { address := "box@corp.example", is_active := true, delta_link := some "OLD-CURSOR" }

/-- A store holding just that mailbox. -/
def c3Store : Store := { mailboxes := [c3Mailbox], settings := some defaultSettings }

/-- Mailbox A of the two-mailbox run scenario. -/
def mailboxA : MailboxRec := { address := "a@corp.example", is_active := true }

/-- Mailbox B of the two-mailbox run scenario. -/
def mailboxB : MailboxRec := { address := "b@corp.example", is_active := true }

/-- A store with two active mailboxes and the default settings row. -/
def twoMailboxStore : Store :=
  { mailboxes := [mailboxA, mailboxB], settings := some defaultSettings }

/-- A fetch in which mailbox A raises a transport error and mailbox B
returns an empty batch. -/
def fetchAFails : String → Option String → Except String (List Msg × Option String) :=
  fun addr _ => if addr = "a@corp.example" then .error "transport error" else .ok ([], none)

/-- The i-th of 60 distinct URLs. -/
def c7Url (i : Nat) : String := "http://a" ++ Nat.repr i

/-- A body containing 60 distinct URLs separated by spaces. -/
def c7Body : String := String.intercalate " " ((List.range 60).map c7Url)

/-- The 60 distinct URLs of `c7Body` in first-seen order. -/
def c7Urls : List String := (List.range 60).map c7Url

/-- A raw message with a remote id, used to exercise ingestion. -/
def w5Msg : Msg :=
  { idField := some "m1", subjectField := some "hello",
    fromAddress := some "alice@corp.example", bodyContent := some "just a note" }

/-- A mailbox with no stored cursor. -/
def w5Mailbox : MailboxRec := { address := "box@corp.example", is_active := true }

/-- A raw message whose remote id field is absent. -/
def w10Msg : Msg := { idField := none }

/-- A persisted email row as ingestion creates it, used to exercise the
override path. -/
def w9Email : EmailRec :=
  { id := 1, graph_message_id := "g1", mailbox_address := "box@corp.example",
    sender := "alice@corp.example", sender_domain := "corp.example",
    recipient := "soc@corp.example", subject := "hello", received_at := 0,
    body_html := none, body_text := some "hi", ai_category := "safe",
    confidence_score := 0, ai_reasoning := [], review_status := "pending" }

/-- A store holding that one email. -/
def w9Store : Store := { next_email_id := 2, emails := [w9Email] }

/-- An override request. -/
def w9Request : OverrideRequest :=
  { new_category := "high_malicious", reason := "user reported", analyst := "carol" }

/-! ## Helper lemmas -/

theorem dedupFirstAux_sublist {α : Type} [DecidableEq α] (seen l : List α) :
    List.Sublist (dedupFirstAux seen l) l := by
  induction l generalizing seen with
  | nil => simp [dedupFirstAux]
  | cons x xs ih =>
    simp only [dedupFirstAux]
    split
    · exact (ih seen).cons x
    · exact (ih (x :: seen)).cons₂ x

theorem dedupFirstAux_not_mem {α : Type} [DecidableEq α] (seen l : List α) (x : α)
    (hx : x ∈ dedupFirstAux seen l) : x ∉ seen := by
  induction l generalizing seen with
  | nil => simp [dedupFirstAux] at hx
  | cons y ys ih =>
    simp only [dedupFirstAux] at hx
    split at hx
    · exact ih seen hx
    · rcases List.mem_cons.mp hx with h | h
      · subst h
        assumption
      · intro hs
        exact ih (y :: seen) h (List.mem_cons_of_mem y hs)

theorem dedupFirstAux_nodup {α : Type} [DecidableEq α] (seen l : List α) :
    (dedupFirstAux seen l).Nodup := by
  induction l generalizing seen with
  | nil => simp [dedupFirstAux]
  | cons y ys ih =>
    simp only [dedupFirstAux]
    split
    · exact ih seen
    · exact List.Nodup.cons
        (fun h => dedupFirstAux_not_mem (y :: seen) ys y h (List.mem_cons_self y seen))
        (ih (y :: seen))

theorem dedupFirstAux_mem {α : Type} [DecidableEq α] (seen l : List α) (x : α) :
    x ∈ dedupFirstAux seen l ↔ x ∈ l ∧ x ∉ seen := by
  induction l generalizing seen with
  | nil => simp [dedupFirstAux]
  | cons y ys ih =>
    simp only [dedupFirstAux]
    split
    · rw [ih seen]
      constructor
      · exact fun ⟨h1, h2⟩ => ⟨List.mem_cons_of_mem y h1, h2⟩
      · rintro ⟨h1, h2⟩
        rcases List.mem_cons.mp h1 with h | h
        · subst h
          exact absurd (by assumption) h2
        · exact ⟨h, h2⟩
    · constructor
      · intro hx
        rcases List.mem_cons.mp hx with h | h
        · subst h
          exact ⟨List.mem_cons_self x ys, by assumption⟩
        · have := (ih (y :: seen)).mp h
          exact ⟨List.mem_cons_of_mem y this.1,
            fun hs => this.2 (List.mem_cons_of_mem y hs)⟩
      · rintro ⟨h1, h2⟩
        rcases List.mem_cons.mp h1 with h | h
        · subst h
          exact List.mem_cons_self x _
        · by_cases hxy : x = y
          · subst hxy
            exact List.mem_cons_self x _
          · exact List.mem_cons_of_mem y ((ih (y :: seen)).mpr
              ⟨h, fun hs => (List.mem_cons.mp hs).elim hxy h2⟩)

theorem dedupFirst_sublist {α : Type} [DecidableEq α] (l : List α) :
    List.Sublist (dedupFirst l) l := dedupFirstAux_sublist [] l

theorem dedupFirst_nodup {α : Type} [DecidableEq α] (l : List α) :
    (dedupFirst l).Nodup := dedupFirstAux_nodup [] l

theorem dedupFirst_mem {α : Type} [DecidableEq α] (l : List α) (x : α) :
    x ∈ dedupFirst l ↔ x ∈ l := by
  rw [dedupFirst, dedupFirstAux_mem]
  simp

theorem dedupFirst_take_nodup {α : Type} [DecidableEq α] (l : List α) (n : Nat) :
    ((dedupFirst l).take n).Nodup :=
  (dedupFirst_nodup l).sublist (List.take_sublist n _)

theorem dedupFirst_take_length {α : Type} [DecidableEq α] (l : List α) (n : Nat) :
    ((dedupFirst l).take n).length ≤ n := List.length_take_le n _

theorem dedupFirst_take_sublist {α : Type} [DecidableEq α] (l : List α) (n : Nat) :
    List.Sublist ((dedupFirst l).take n) l :=
  (List.take_sublist n _).trans (dedupFirst_sublist l)

theorem dedupFirst_take_complete {α : Type} [DecidableEq α] (l : List α) (n : Nat)
    (h : (dedupFirst l).length ≤ n) (x : α) (hx : x ∈ l) :
    x ∈ (dedupFirst l).take n := by
  rw [List.take_of_length_le h]
  exact (dedupFirst_mem l x).mpr hx

theorem storeSetMailbox_emails (st : Store) (m : MailboxRec) :
    (storeSetMailbox st m).emails = st.emails := rfl

theorem emailExists_congr {st st' : Store} (h : st'.emails = st.emails) (g : String) :
    emailExists st' g = emailExists st g := by
  simp [emailExists, h]

theorem emailExists_of_emails_append {st st' : Store} {tl : List EmailRec}
    (h : st'.emails = st.emails ++ tl) {g : String}
    (he : emailExists st g = true) : emailExists st' g = true := by
  simp only [emailExists, h, List.any_append]
  simp only [emailExists] at he
  simp [he]

theorem process_message_emails_append (work : Store) (msg : Msg) (addr : String)
    (rules : List CustomRuleRec) (hi lo : ℚ) (now : Nat) :
    ∃ tl, (_process_message work msg addr rules hi lo now).1.emails = work.emails ++ tl := by
  simp only [_process_message]
  split
  · exact ⟨[], by simp⟩
  · split
    · exact ⟨[], by simp⟩
    · exact ⟨_, rfl⟩

theorem processMessages_emails_append (msgs : List Msg) (work : Store) (addr : String)
    (rules : List CustomRuleRec) (hi lo : ℚ) (now : Nat) :
    ∃ tl, (processMessages work msgs addr rules hi lo now).1.emails = work.emails ++ tl := by
  induction msgs generalizing work with
  | nil => exact ⟨[], by simp [processMessages]⟩
  | cons m ms ih =>
    simp only [processMessages]
    obtain ⟨t1, h1⟩ := process_message_emails_append work m addr rules hi lo now
    obtain ⟨t2, h2⟩ := ih (_process_message work m addr rules hi lo now).1
    exact ⟨t1 ++ t2, by rw [h2, h1, List.append_assoc]⟩

theorem ingest_mailbox_emails_append (store : Store) (mailbox : MailboxRec)
    (settings_row : AppSettingsRec)
    (fr : Except String (List Msg × Option String)) (cf : Option String) (now : Nat) :
    ∃ tl, (ingest_mailbox store mailbox settings_row fr cf now).store.emails
      = store.emails ++ tl := by
  rcases fr with exc | ⟨msgs, nd⟩
  · exact ⟨[], by simp [ingest_mailbox, storeSetMailbox]⟩
  · rcases cf with _ | exc
    · obtain ⟨tl, htl⟩ := processMessages_emails_append msgs store mailbox.address
        (store.custom_rules.filter (fun r => r.is_active))
        settings_row.high_malicious_threshold settings_row.low_malicious_threshold now
      refine ⟨tl, ?_⟩
      simp only [ingest_mailbox]
      split
      · exact htl
      · exact htl
    · exact ⟨[], by simp [ingest_mailbox, storeSetMailbox]⟩

theorem process_message_skip (work : Store) (msg : Msg) (addr : String)
    (rules : List CustomRuleRec) (hi lo : ℚ) (now : Nat)
    (h : msg.idField.getD "" = "" ∨ emailExists work (msg.idField.getD "") = true) :
    _process_message work msg addr rules hi lo now = (work, 0) := by
  rcases h with h | h
  · simp [_process_message, h]
  · by_cases hg : msg.idField.getD "" = ""
    · simp [_process_message, hg]
    · simp [_process_message, hg, h]

theorem process_message_covers (work : Store) (msg : Msg) (addr : String)
    (rules : List CustomRuleRec) (hi lo : ℚ) (now : Nat)
    (h : msg.idField.getD "" ≠ "") :
    emailExists (_process_message work msg addr rules hi lo now).1
      (msg.idField.getD "") = true := by
  simp only [_process_message]
  split
  · exact absurd (by assumption) h
  · split
    · assumption
    · simp [emailExists, List.any_append]

theorem processMessages_covers (msgs : List Msg) (work : Store) (addr : String)
    (rules : List CustomRuleRec) (hi lo : ℚ) (now : Nat) :
    ∀ m ∈ msgs, m.idField.getD "" ≠ "" →
      emailExists (processMessages work msgs addr rules hi lo now).1
        (m.idField.getD "") = true := by
  induction msgs generalizing work with
  | nil => exact fun m hm => absurd hm (List.not_mem_nil m)
  | cons x xs ih =>
    intro m hm hne
    simp only [processMessages]
    rcases List.mem_cons.mp hm with h | h
    · subst h
      obtain ⟨tl, htl⟩ := processMessages_emails_append xs
        (_process_message work m addr rules hi lo now).1 addr rules hi lo now
      exact emailExists_of_emails_append htl
        (process_message_covers work m addr rules hi lo now hne)
    · exact ih (_process_message work x addr rules hi lo now).1 m h hne

theorem processMessages_skip (msgs : List Msg) (work : Store) (addr : String)
    (rules : List CustomRuleRec) (hi lo : ℚ) (now : Nat)
    (h : ∀ m ∈ msgs, m.idField.getD "" = "" ∨
      emailExists work (m.idField.getD "") = true) :
    processMessages work msgs addr rules hi lo now = (work, 0) := by
  induction msgs with
  | nil => rfl
  | cons m ms ih =>
    have h1 := process_message_skip work m addr rules hi lo now (h m (List.mem_cons_self m ms))
    have h2 := ih (fun m' hm' => h m' (List.mem_cons_of_mem m hm'))
    simp [processMessages, h1, h2]

theorem not_mem_graphIds_of_not_exists (st : Store) (g : String)
    (h : ¬ emailExists st g = true) : g ∉ graphIds st := by
  simp only [emailExists, List.any_eq_true, beq_iff_eq] at h
  push_neg at h
  simp only [graphIds, List.mem_map]
  rintro ⟨e, he, hge⟩
  exact h e he hge

theorem process_message_graphIds_nodup (work : Store) (msg : Msg) (addr : String)
    (rules : List CustomRuleRec) (hi lo : ℚ) (now : Nat)
    (h : (graphIds work).Nodup) :
    (graphIds (_process_message work msg addr rules hi lo now).1).Nodup := by
  simp only [_process_message]
  split
  · exact h
  · split
    · exact h
    · simp only [graphIds, List.map_append, List.map_cons, List.map_nil]
      rw [List.nodup_append]
      refine ⟨h, List.nodup_singleton _, ?_⟩
      intro a ha hb
      rcases List.mem_singleton.mp hb with rfl
      exact not_mem_graphIds_of_not_exists work _ (by assumption) ha

theorem processMessages_graphIds_nodup (msgs : List Msg) (work : Store) (addr : String)
    (rules : List CustomRuleRec) (hi lo : ℚ) (now : Nat)
    (h : (graphIds work).Nodup) :
    (graphIds (processMessages work msgs addr rules hi lo now).1).Nodup := by
  induction msgs generalizing work with
  | nil => exact h
  | cons m ms ih =>
    simp only [processMessages]
    exact ih (_process_message work m addr rules hi lo now).1
      (process_message_graphIds_nodup work m addr rules hi lo now h)

theorem graphIds_congr {st st' : Store} (h : st'.emails = st.emails) :
    graphIds st' = graphIds st := by
  simp [graphIds, h]

theorem ingest_mailbox_ok_none_emails (store : Store) (mailbox : MailboxRec)
    (settings_row : AppSettingsRec) (msgs : List Msg) (nd : Option String) (now : Nat) :
    (ingest_mailbox store mailbox settings_row (.ok (msgs, nd)) none now).store.emails =
      (processMessages store msgs mailbox.address
        (store.custom_rules.filter (fun r => r.is_active))
        settings_row.high_malicious_threshold
        settings_row.low_malicious_threshold now).1.emails := by
  simp only [ingest_mailbox]
  split
  · rfl
  · rfl

theorem ingest_mailbox_graphIds_nodup (store : Store) (mailbox : MailboxRec)
    (settings_row : AppSettingsRec)
    (fr : Except String (List Msg × Option String)) (cf : Option String) (now : Nat)
    (h : (graphIds store).Nodup) :
    (graphIds (ingest_mailbox store mailbox settings_row fr cf now).store).Nodup := by
  rcases fr with exc | ⟨msgs, nd⟩
  · simpa [ingest_mailbox, graphIds, storeSetMailbox] using h
  · rcases cf with _ | exc
    · have hpm := processMessages_graphIds_nodup msgs store mailbox.address
        (store.custom_rules.filter (fun r => r.is_active))
        settings_row.high_malicious_threshold
        settings_row.low_malicious_threshold now h
      simp only [ingest_mailbox]
      split
      · simpa [graphIds, storeSetMailbox] using hpm
      · simpa [graphIds, storeSetMailbox] using hpm
    · simpa [ingest_mailbox, graphIds, storeSetMailbox] using h

theorem find?_map_update (l : List EmailRec) (eid : Nat) (e e' : EmailRec)
    (hfind : l.find? (fun x => x.id == eid) = some e) (hid : e'.id = e.id) :
    (l.map (fun x => if x.id == eid then e' else x)).find? (fun x => x.id == eid)
      = some e' := by
  induction l with
  | nil => simp [List.find?] at hfind
  | cons y ys ih =>
    cases hy : (y.id == eid) with
    | true =>
      simp only [List.find?, hy] at hfind
      have hey : y = e := Option.some.inj hfind
      have he' : (e'.id == eid) = true := by
        rw [beq_iff_eq] at hy ⊢
        rw [hid, ← hey]
        exact hy
      simp [List.find?, hy, he']
    | false =>
      simp only [List.find?, hy] at hfind
      have hcond : ¬ ((y.id == eid) = true) := by simp [hy]
      rw [List.map_cons, if_neg hcond]
      simp only [List.find?, hy]
      exact ih hfind

theorem classify_category (s b d : String) (u i : List String) (hi lo : ℚ) :
    (classify s b d u i hi lo).1 =
      (if hi ≤ classifyScore s b d u i then "high_malicious"
       else if lo ≤ classifyScore s b d u i then "low_malicious" else "safe") := by
  unfold classify
  by_cases h1 : hi ≤ classifyScore s b d u i
  · simp [h1]
  · by_cases h2 : lo ≤ classifyScore s b d u i
    · simp [h1, h2]
    · simp [h1, h2]

theorem catRank_high : catRank "high_malicious" = 2 := rfl

theorem catRank_low : catRank "low_malicious" = 1 := rfl

theorem catRank_safe : catRank "safe" = 0 := rfl

/-! ## Claim theorems -/

/-- C1 (code_bug evidence): `apply_custom_rules` fires the first matching
active rule in the caller-supplied order, so an active keyword rule listed
before an active domain rule decides the category even when the sender
domain matches the domain rule — the domain rule's force_category does not
take precedence, contradicting the matcher's own docstring. -/
theorem C1_keyword_rule_preempts_domain_rule :
    apply_custom_rules "urgent" "" "evil.example"
      [{ rule_type := "keyword", value := "urgent", force_category := "safe",
         is_active := true },
       { rule_type := "domain", value := "evil.example", force_category := "high_malicious",
         is_active := true }] = some "safe"
    ∧ ("safe" : String) ≠ "high_malicious" := by
  constructor
  · decide
  · decide

/-- C2: when the batch commit of `ingest_mailbox` fails, the transaction is
rolled back: no new Email row, ThreatIndicator row, AuditTrailEntry row, or
aggregate AuditLog row from that batch appears in the persisted store (the
separate error transaction only rewrites the mailbox row). -/
theorem C2_commit_failure_is_atomic (store : Store) (mailbox : MailboxRec)
    (settings_row : AppSettingsRec) (msgs : List Msg) (new_delta : Option String)
    (exc : String) (now : Nat) :
    (ingest_mailbox store mailbox settings_row (.ok (msgs, new_delta))
        (some exc) now).store.emails = store.emails ∧
    (ingest_mailbox store mailbox settings_row (.ok (msgs, new_delta))
        (some exc) now).store.indicators = store.indicators ∧
    (ingest_mailbox store mailbox settings_row (.ok (msgs, new_delta))
        (some exc) now).store.trail = store.trail ∧
    (ingest_mailbox store mailbox settings_row (.ok (msgs, new_delta))
        (some exc) now).store.audit_log = store.audit_log :=
  ⟨rfl, rfl, rfl, rfl⟩

/-- C3 counterexample: at a commit failure the separate error transaction
never commits — `db2.add` raises because the mailbox object is still
attached to the rolled-back session — so lastError is NOT written (the
row's last_error keeps its pre-poll `none`), refuting "only lastError is
written in the separate error transaction"; the call raises instead of
returning. -/
theorem C3_counterexample_lasterror_not_written :
    ((ingest_mailbox c3Store c3Mailbox defaultSettings (.ok ([], some "NEW-CURSOR"))
        (some "commit failed") 7).store.mailboxes.map (fun m => m.last_error)
      = [none]) ∧
    ¬ ((ingest_mailbox c3Store c3Mailbox defaultSettings (.ok ([], some "NEW-CURSOR"))
        (some "commit failed") 7).store.mailboxes.map (fun m => m.last_error)
      = [some (truncate512 "commit failed")]) ∧
    ((ingest_mailbox c3Store c3Mailbox defaultSettings (.ok ([], some "NEW-CURSOR"))
        (some "commit failed") 7).outcome = .error alreadyAttachedError) :=
  ⟨by decide, by decide, rfl⟩

/-- C3 amended: after a failing poll the persisted deltaCursor of every
mailbox row equals its pre-poll value in both failure modes; on a fetch
error the separate error transaction writes only lastError onto the polled
row, while on a commit error the error transaction itself raises (the
mailbox is still attached to the rolled-back session), so the persisted
store is entirely unchanged and the exception propagates to the run
loop instead. -/
theorem C3_cursor_unchanged_on_error (store : Store) (mailbox : MailboxRec)
    (s : AppSettingsRec) (fexc cexc : String) (cf : Option String)
    (msgs : List Msg) (nd : Option String) (now : Nat)
    (haddr : ∀ x ∈ store.mailboxes, x.address = mailbox.address →
      x.delta_link = mailbox.delta_link) :
    ((ingest_mailbox store mailbox s (.error fexc) cf now).store.mailboxes.map
        (fun m => m.delta_link) = store.mailboxes.map (fun m => m.delta_link)) ∧
    (∀ x ∈ (ingest_mailbox store mailbox s (.error fexc) cf now).store.mailboxes,
      x.address = mailbox.address → x.last_error = some (truncate512 fexc)) ∧
    ((ingest_mailbox store mailbox s (.ok (msgs, nd)) (some cexc) now).store = store) ∧
    ((ingest_mailbox store mailbox s (.ok (msgs, nd)) (some cexc) now).outcome
      = .error alreadyAttachedError) := by
  refine ⟨?_, ?_, rfl, rfl⟩
  · simp only [ingest_mailbox, storeSetMailbox, List.map_map]
    refine List.map_congr_left ?_
    intro x hx
    by_cases hax : x.address = mailbox.address
    · simp only [Function.comp_apply, if_pos hax]
      exact (haddr x hx hax).symm
    · simp only [Function.comp_apply, if_neg hax]
  · intro x hx hax
    simp only [ingest_mailbox, storeSetMailbox, List.mem_map] at hx
    rcases hx with ⟨y, hy, hxy⟩
    by_cases hay : y.address = mailbox.address
    · rw [if_pos hay] at hxy
      rw [← hxy]
    · rw [if_neg hay] at hxy
      exact absurd (hxy ▸ hax) hay

/-- Witness for C3's amended theorem at a concrete mailbox and both failure
modes. -/
theorem C3_witness :
    ((ingest_mailbox c3Store c3Mailbox defaultSettings (.error "transport down")
        none 7).store.mailboxes.map (fun m => m.delta_link)
      = c3Store.mailboxes.map (fun m => m.delta_link)) ∧
    ((ingest_mailbox c3Store c3Mailbox defaultSettings (.ok ([], some "NEW-CURSOR"))
        (some "commit failed") 7).store = c3Store) :=
  ⟨(C3_cursor_unchanged_on_error c3Store c3Mailbox defaultSettings "transport down"
      "commit failed" none [] (some "NEW-CURSOR") 7 (by decide)).1,
   (C3_cursor_unchanged_on_error c3Store c3Mailbox defaultSettings "transport down"
      "commit failed" none [] (some "NEW-CURSOR") 7 (by decide)).2.2.1⟩

/-- C4 counterexample: with mailbox A raising a transport error and mailbox B
succeeding in the same run, the run summary does NOT report one error and
one mailbox processed — `ingest_mailbox` swallows the failure, so the
summary reports zero errors and two mailboxes processed. -/
theorem C4_counterexample_error_not_in_summary :
    ¬ ((run_ingestion twoMailboxStore true fetchAFails (fun _ => none) 5).summary.errors.length = 1 ∧
       (run_ingestion twoMailboxStore true fetchAFails (fun _ => none) 5).summary.mailboxes_processed = 1) := by
  decide

/-- C4 amended: a transport error for mailbox A is caught inside the
orchestrator, so the run summary reports zero errors and both mailboxes as
processed; jobStatus returns to idle with lastErrorMessage cleared, and the
failure is visible only as mailbox A's last_error. -/
theorem C4_amended_run_summary :
    (run_ingestion twoMailboxStore true fetchAFails (fun _ => none) 5).summary.errors = [] ∧
    (run_ingestion twoMailboxStore true fetchAFails (fun _ => none) 5).summary.mailboxes_processed = 2 ∧
    (run_ingestion twoMailboxStore true fetchAFails (fun _ => none) 5).summary.total_ingested = 0 ∧
    (run_ingestion twoMailboxStore true fetchAFails (fun _ => none) 5).store.settings.map
      (fun s => s.job_status) = some "idle" ∧
    (run_ingestion twoMailboxStore true fetchAFails (fun _ => none) 5).store.settings.map
      (fun s => s.job_error_message) = some none ∧
    (run_ingestion twoMailboxStore true fetchAFails (fun _ => none) 5).store.mailboxes.map
      (fun m => m.last_error) = [some "transport error", none] := by
  refine ⟨?_, ?_, ?_, ?_, ?_, ?_⟩ <;> decide

/-- C6: for thresholds with lowThreshold < highThreshold, the category
returned by `SimpleClassifier.classify` is exactly the two-threshold
comparison on the computed (capped) score, and it is monotone in that
score: a larger computed score never moves the category backward along
safe → low_malicious → high_malicious. -/
theorem C6_classifier_monotone
    (s1 b1 d1 : String) (u1 i1 : List String)
    (s2 b2 d2 : String) (u2 i2 : List String)
    (hi lo : ℚ) (hth : lo < hi)
    (hsc : classifyScore s1 b1 d1 u1 i1 ≤ classifyScore s2 b2 d2 u2 i2) :
    ((classify s1 b1 d1 u1 i1 hi lo).1 =
      (if hi ≤ classifyScore s1 b1 d1 u1 i1 then "high_malicious"
       else if lo ≤ classifyScore s1 b1 d1 u1 i1 then "low_malicious" else "safe")) ∧
    catRank (classify s1 b1 d1 u1 i1 hi lo).1
      ≤ catRank (classify s2 b2 d2 u2 i2 hi lo).1 := by
  refine ⟨classify_category s1 b1 d1 u1 i1 hi lo, ?_⟩
  rw [classify_category s1 b1 d1 u1 i1 hi lo, classify_category s2 b2 d2 u2 i2 hi lo]
  by_cases h1 : hi ≤ classifyScore s1 b1 d1 u1 i1
  · have h2 : hi ≤ classifyScore s2 b2 d2 u2 i2 := le_trans h1 hsc
    rw [if_pos h1, if_pos h2]
  · by_cases h3 : lo ≤ classifyScore s1 b1 d1 u1 i1
    · have h4 : lo ≤ classifyScore s2 b2 d2 u2 i2 := le_trans h3 hsc
      by_cases h5 : hi ≤ classifyScore s2 b2 d2 u2 i2
      · rw [if_neg h1, if_pos h3, if_pos h5, catRank_low, catRank_high]
        omega
      · rw [if_neg h1, if_pos h3, if_neg h5, if_pos h4]
    · rw [if_neg h1, if_neg h3, catRank_safe]
      exact Nat.zero_le _

/-- Witness for C6 at concrete thresholds 0.80 / 0.50 and equal inputs. -/
theorem C6_witness :
    (1 / 2 : ℚ) < 4 / 5 ∧
    catRank (classify "hello" "a note" "corp.example" [] [] (4 / 5) (1 / 2)).1
      ≤ catRank (classify "hello" "a note" "corp.example" [] [] (4 / 5) (1 / 2)).1 :=
  ⟨by norm_num,
   (C6_classifier_monotone "hello" "a note" "corp.example" [] []
      "hello" "a note" "corp.example" [] [] (4 / 5) (1 / 2) (by norm_num) (le_refl _)).2⟩

set_option maxRecDepth 400000 in
/-- C7: for every pair of optional bodies, `extract_indicators` returns
de-duplicated lists in first-seen order (each output is a duplicate-free
sublist of the corresponding raw match list), truncated after the
de-duplication to at most 50 URLs, 50 domains and 20 IPs (a raw match is
dropped only when the cap is exceeded); and a body holding 60 distinct URLs
yields exactly the first 50 of them, in first-seen order. -/
theorem C7_indicator_caps :
    (∀ html text : Option String,
      ((extract_indicators html text).1.Nodup ∧
        (extract_indicators html text).2.1.Nodup ∧
        (extract_indicators html text).2.2.Nodup) ∧
      ((extract_indicators html text).1.length ≤ 50 ∧
        (extract_indicators html text).2.1.length ≤ 50 ∧
        (extract_indicators html text).2.2.length ≤ 20) ∧
      (List.Sublist (extract_indicators html text).1 (rawUrlStrings html text) ∧
        List.Sublist (extract_indicators html text).2.1 (rawDomainStrings html text) ∧
        List.Sublist (extract_indicators html text).2.2 (rawIpStrings html text)) ∧
      ((dedupFirst (rawUrlStrings html text)).length ≤ 50 →
        ∀ u ∈ rawUrlStrings html text, u ∈ (extract_indicators html text).1)) ∧
    (rawUrlStrings (some c7Body) none = c7Urls ∧ c7Urls.Nodup ∧ c7Urls.length = 60 ∧
      (extract_indicators (some c7Body) none).1 = c7Urls.take 50) := by
  constructor
  · intro html text
    refine ⟨⟨?_, ?_, ?_⟩, ⟨?_, ?_, ?_⟩, ⟨?_, ?_, ?_⟩, ?_⟩
    · exact dedupFirst_take_nodup (rawUrlStrings html text) 50
    · exact dedupFirst_take_nodup (rawDomainStrings html text) 50
    · exact dedupFirst_take_nodup (rawIpStrings html text) 20
    · exact dedupFirst_take_length (rawUrlStrings html text) 50
    · exact dedupFirst_take_length (rawDomainStrings html text) 50
    · exact dedupFirst_take_length (rawIpStrings html text) 20
    · exact dedupFirst_take_sublist (rawUrlStrings html text) 50
    · exact dedupFirst_take_sublist (rawDomainStrings html text) 50
    · exact dedupFirst_take_sublist (rawIpStrings html text) 20
    · intro hlen u hu
      exact dedupFirst_take_complete (rawUrlStrings html text) 50 hlen u hu
  · refine ⟨?_, ?_, ?_, ?_⟩ <;> decide

/-- Witness for C7's universally quantified part at a small concrete body. -/
theorem C7_witness :
    "http://one.example" ∈ (extract_indicators (some "go http://one.example now") none).1 :=
  (C7_indicator_caps.1 (some "go http://one.example now") none).2.2.2
    (by decide) "http://one.example" (by decide)

/-- C8 counterexample: starting from an idle settings row, an unconfigured
run persists an intermediate snapshot whose jobStatus is "running" — the
status does not stay idle throughout. -/
theorem C8_counterexample_running_persisted :
    twoMailboxStore.settings.map (fun s => s.job_status) = some "idle" ∧
    ∃ st ∈ (run_ingestion twoMailboxStore false fetchAFails (fun _ => none) 3).commits,
      st.settings.map (fun s => s.job_status) = some "running" := by
  constructor
  · decide
  · decide

/-- C8 amended: when the mail source is unconfigured, the run processes no
mailbox, ingests nothing, reports no error and leaves the final jobStatus
idle with emails and mailboxes untouched — but it first persists jobStatus
"running" and only then persists "idle" (two commits, in that order). -/
theorem C8_amended_not_configured (store : Store) (s : AppSettingsRec)
    (fetchOf : String → Option String → Except String (List Msg × Option String))
    (commitFailOf : String → Option String) (now : Nat)
    (hs : store.settings = some s) :
    (run_ingestion store false fetchOf commitFailOf now).summary.mailboxes_processed = 0 ∧
    (run_ingestion store false fetchOf commitFailOf now).summary.total_ingested = 0 ∧
    (run_ingestion store false fetchOf commitFailOf now).summary.errors = [] ∧
    (run_ingestion store false fetchOf commitFailOf now).store.settings.map
      (fun x => x.job_status) = some "idle" ∧
    (run_ingestion store false fetchOf commitFailOf now).store.emails = store.emails ∧
    (run_ingestion store false fetchOf commitFailOf now).store.mailboxes = store.mailboxes ∧
    (run_ingestion store false fetchOf commitFailOf now).commits.map
      (fun st => st.settings.map (fun x => x.job_status)) = [some "running", some "idle"] := by
  simp [run_ingestion, hs]

/-- Witness for C8's amended theorem at a concrete unconfigured run. -/
theorem C8_amended_witness :
    (run_ingestion twoMailboxStore false fetchAFails (fun _ => none) 3).summary.mailboxes_processed = 0 ∧
    (run_ingestion twoMailboxStore false fetchAFails (fun _ => none) 3).commits.map
      (fun st => st.settings.map (fun x => x.job_status)) = [some "running", some "idle"] :=
  ⟨(C8_amended_not_configured twoMailboxStore defaultSettings fetchAFails (fun _ => none) 3 rfl).1,
   (C8_amended_not_configured twoMailboxStore defaultSettings fetchAFails (fun _ => none) 3 rfl).2.2.2.2.2.2⟩

/-- C10: a raw message whose remote id field is missing or empty is treated
like a duplicate by `_process_message`: it returns 0 and leaves the session
store unchanged — no Email row, indicator, or audit-trail entry is created
and no error is raised. -/
theorem C10_missing_remote_id_is_skipped (work : Store) (msg : Msg) (addr : String)
    (rules : List CustomRuleRec) (hi lo : ℚ) (now : Nat)
    (h : msg.idField = none ∨ msg.idField = some "") :
    _process_message work msg addr rules hi lo now = (work, 0) := by
  rcases h with h | h <;> simp [_process_message, h]

theorem ingest_mailbox_skip_run (store : Store) (mailbox2 : MailboxRec)
    (settings_row : AppSettingsRec) (msgs : List Msg) (d' : Option String) (now' : Nat)
    (h : ∀ m ∈ msgs, m.idField.getD "" = "" ∨
      emailExists store (m.idField.getD "") = true) :
    (ingest_mailbox store mailbox2 settings_row (.ok (msgs, d')) none now').ingested = 0 ∧
    (ingest_mailbox store mailbox2 settings_row (.ok (msgs, d')) none now').store.emails
      = store.emails ∧
    (ingest_mailbox store mailbox2 settings_row (.ok (msgs, d')) none now').store.indicators
      = store.indicators ∧
    (ingest_mailbox store mailbox2 settings_row (.ok (msgs, d')) none now').store.trail
      = store.trail ∧
    (ingest_mailbox store mailbox2 settings_row (.ok (msgs, d')) none now').store.audit_log
      = store.audit_log := by
  have hskip := processMessages_skip msgs store mailbox2.address
    (store.custom_rules.filter (fun r => r.is_active))
    settings_row.high_malicious_threshold settings_row.low_malicious_threshold now' h
  refine ⟨?_, ?_, ?_, ?_, ?_⟩ <;>
    simp [ingest_mailbox, hskip, storeSetMailbox, IngestResult.ingested]

/-- C5: ingestion is idempotent over a raw message batch: after a successful
first poll has committed its records, feeding the identical batch to a
second poll ingests zero new emails and leaves the email, indicator,
audit-trail and audit-log tables unchanged (every message is skipped as a
duplicate of its stored remote id, and the zero count also means no
aggregate audit entry); moreover, when the stored remote ids were unique
before the first poll they remain unique after it, so at most one record
exists per remote id. -/
theorem C5_ingestion_idempotent (store : Store) (mailbox mailbox2 : MailboxRec)
    (settings_row : AppSettingsRec) (msgs : List Msg) (d d' : Option String)
    (now now' : Nat) :
    (ingest_mailbox (ingest_mailbox store mailbox settings_row (.ok (msgs, d)) none now).store
        mailbox2 settings_row (.ok (msgs, d')) none now').ingested = 0 ∧
    (ingest_mailbox (ingest_mailbox store mailbox settings_row (.ok (msgs, d)) none now).store
        mailbox2 settings_row (.ok (msgs, d')) none now').store.emails
      = (ingest_mailbox store mailbox settings_row (.ok (msgs, d)) none now).store.emails ∧
    (ingest_mailbox (ingest_mailbox store mailbox settings_row (.ok (msgs, d)) none now).store
        mailbox2 settings_row (.ok (msgs, d')) none now').store.indicators
      = (ingest_mailbox store mailbox settings_row (.ok (msgs, d)) none now).store.indicators ∧
    (ingest_mailbox (ingest_mailbox store mailbox settings_row (.ok (msgs, d)) none now).store
        mailbox2 settings_row (.ok (msgs, d')) none now').store.trail
      = (ingest_mailbox store mailbox settings_row (.ok (msgs, d)) none now).store.trail ∧
    (ingest_mailbox (ingest_mailbox store mailbox settings_row (.ok (msgs, d)) none now).store
        mailbox2 settings_row (.ok (msgs, d')) none now').store.audit_log
      = (ingest_mailbox store mailbox settings_row (.ok (msgs, d)) none now).store.audit_log ∧
    ((graphIds store).Nodup →
      (graphIds (ingest_mailbox store mailbox settings_row (.ok (msgs, d)) none now).store).Nodup) := by
  have hcov : ∀ m ∈ msgs, m.idField.getD "" = "" ∨
      emailExists (ingest_mailbox store mailbox settings_row (.ok (msgs, d)) none now).store
        (m.idField.getD "") = true := by
    intro m hm
    by_cases hg : m.idField.getD "" = ""
    · exact Or.inl hg
    · refine Or.inr ?_
      have h1 := processMessages_covers msgs store mailbox.address
        (store.custom_rules.filter (fun r => r.is_active))
        settings_row.high_malicious_threshold settings_row.low_malicious_threshold now m hm hg
      have h2 := ingest_mailbox_ok_none_emails store mailbox settings_row msgs d now
      rw [emailExists_congr h2]
      exact h1
  have hmain := ingest_mailbox_skip_run
    (ingest_mailbox store mailbox settings_row (.ok (msgs, d)) none now).store
    mailbox2 settings_row msgs d' now' hcov
  exact ⟨hmain.1, hmain.2.1, hmain.2.2.1, hmain.2.2.2.1, hmain.2.2.2.2,
    fun h => ingest_mailbox_graphIds_nodup store mailbox settings_row _ none now h⟩

/-- Witness for C5 at a concrete batch of one message ingested twice. -/
theorem C5_witness :
    (ingest_mailbox (ingest_mailbox ({} : Store) w5Mailbox defaultSettings
        (.ok ([w5Msg], none)) none 1).store
      w5Mailbox defaultSettings (.ok ([w5Msg], none)) none 2).ingested = 0 ∧
    (graphIds (ingest_mailbox ({} : Store) w5Mailbox defaultSettings
        (.ok ([w5Msg], none)) none 1).store).Nodup :=
  ⟨(C5_ingestion_idempotent ({} : Store) w5Mailbox w5Mailbox defaultSettings
      [w5Msg] none none 1 2).1,
   (C5_ingestion_idempotent ({} : Store) w5Mailbox w5Mailbox defaultSettings
      [w5Msg] none none 1 2).2.2.2.2.2 (by simp [graphIds])⟩

/-- C9: the analyst override sets all four analyst override fields and
review_status = "overridden" on the targeted email while leaving its
ai_category unchanged and every other email row untouched; and ingestion
only ever appends new email rows, so it never mutates the ai_category of an
already-stored record after insert. -/
theorem C9_override_sets_only_review_fields (store : Store) (eid : Nat)
    (body : OverrideRequest) (now : Nat) (e : EmailRec)
    (hfind : findEmail store eid = some e) :
    (∃ store', override_email store eid body now = Except.ok store' ∧
      (∃ e', findEmail store' eid = some e' ∧
        e'.analyst_category = some body.new_category ∧
        e'.analyst_override_reason = some body.reason ∧
        e'.reviewed_by = some body.analyst ∧
        e'.reviewed_at = some now ∧
        e'.review_status = "overridden" ∧
        e'.ai_category = e.ai_category) ∧
      (∀ x ∈ store'.emails, x.id ≠ eid → x ∈ store.emails)) ∧
    (∀ (st : Store) (mb : MailboxRec) (s : AppSettingsRec)
        (fr : Except String (List Msg × Option String)) (cf : Option String) (n : Nat),
      ∃ tl, (ingest_mailbox st mb s fr cf n).store.emails = st.emails ++ tl) := by
  constructor
  · have hfind2 : store.emails.find? (fun x => x.id == eid) = some e := hfind
    have h1 : (e.id == eid) = true := by
      have hp := List.find?_some hfind2
      exact hp
    simp only [override_email, findEmail, hfind2]
    refine ⟨_, rfl, ?_, ?_⟩
    · refine ⟨{ e with
        analyst_category := some body.new_category,
        analyst_override_reason := some body.reason,
        reviewed_by := some body.analyst,
        reviewed_at := some now,
        review_status := "overridden" }, ?_, rfl, rfl, rfl, rfl, rfl, rfl⟩
      exact find?_map_update store.emails eid e _ hfind2 rfl
    · intro x hx hne
      rcases List.mem_map.mp hx with ⟨y, hy, hxy⟩
      by_cases hyid : (y.id == eid) = true
      · exfalso
        apply hne
        rw [if_pos hyid] at hxy
        have h2 : e.id = eid := by rwa [beq_iff_eq] at h1
        rw [← hxy]
        exact h2
      · rw [if_neg hyid] at hxy
        exact hxy ▸ hy
  · intro st mb s fr cf n
    exact ingest_mailbox_emails_append st mb s fr cf n

/-- Witness for C9 at a concrete stored email and override request. -/
theorem C9_witness :
    ∃ store', override_email w9Store 1 w9Request 5 = Except.ok store' ∧
      ∃ e', findEmail store' 1 = some e' ∧
        e'.analyst_category = some "high_malicious" ∧
        e'.analyst_override_reason = some "user reported" ∧
        e'.reviewed_by = some "carol" ∧
        e'.reviewed_at = some 5 ∧
        e'.review_status = "overridden" ∧
        e'.ai_category = "safe" := by
  obtain ⟨store', hok, ⟨e', hfind', hA, hB, hC, hD, hE, hF⟩, hother⟩ :=
    (C9_override_sets_only_review_fields w9Store 1 w9Request 5 w9Email rfl).1
  exact ⟨store', hok, e', hfind', hA, hB, hC, hD, hE, hF⟩

/-- Witness for C10 at a concrete message with an absent id field. -/
theorem C10_witness :
    (w10Msg.idField = none ∨ w10Msg.idField = some "") ∧
    _process_message ({} : Store) w10Msg "box@corp.example" [] (4 / 5) (1 / 2) 3
      = (({} : Store), 0) :=
  ⟨Or.inl rfl,
   C10_missing_remote_id_is_skipped ({} : Store) w10Msg "box@corp.example" [] (4 / 5) (1 / 2) 3
     (Or.inl rfl)⟩

end PhishDefender
